import Mathlib

/-!
Shallow embedding of `bin/boinc2docker_create_work.py` (the packaging
pipeline that turns a Docker image plus a command into a BOINC job
package), together with proofs settling the specification claims.

The embedding models:
* the Python string primitives the source uses (`str.split()`, `str()` of a
  list, `in`, `os.path.split`, `os.path.basename`, `' '.join`),
* the command / script rendering (source lines 80-105),
* the staged-file list and the XML input-template generation
  (source lines 74-77 and 133-144),
* the orchestration over the content-addressed cache store: the image
  cache check, the per-layer extraction loop and the image-metadata
  archive write (source lines 56-129), and
* the `except KeyboardInterrupt` / `finally` cleanup structure
  (source lines 149-156), with explicit interruption/fault points.

External collaborators (the docker daemon, `dir_hier_path`, `create_work`)
are abstracted as an `Env` of deterministic functions, as the spec's §1
prescribes ("the core only needs a content-addressed path resolver and a
submission function").  `dir_hier_path` is a fixed injective resolver from
deterministic archive filenames to paths in the shared store, so the cache
store is modelled keyed directly by filename: `exists(dir_hier_path f)`
becomes a lookup of `f`.
-/

namespace Boinc2Docker

/-! ## Models of Python primitives used by the source -/

/-- Python `str.split()` with no argument: the maximal runs of
non-whitespace characters, in order; empty runs are dropped. -/
def pySplitAux : List Char → List Char → List String
  | [], acc => if acc = [] then [] else [String.mk acc.reverse]
  | c :: cs, acc =>
    if c.isWhitespace then
      if acc = [] then pySplitAux cs [] else String.mk acc.reverse :: pySplitAux cs []
    else pySplitAux cs (c :: acc)

/-- Python `s.split()` on a string. -/
def pySplit (s : String) : List String := pySplitAux s.data []

/-- A single-quote character, written via its code point. -/
def sq : String := String.mk [Char.ofNat 39]

/-- Python `sep.join(xs)`. -/
def joinSep (sep : String) : List String → String
  | [] => ""
  | [x] => x
  | x :: y :: xs => x ++ sep ++ joinSep sep (y :: xs)

/-- Python 2 `str(xs)` for a list of (quote-free) strings:
`['echo', 'foo']`-style rendering with single-quoted elements. -/
def pyStrList (xs : List String) : String :=
  "[" ++ joinSep ", " (xs.map (fun x => sq ++ x ++ sq)) ++ "]"

/-- Python `c in s` membership, on the character list. -/
def pyInAux (c : Char) : List Char → Bool
  | [] => false
  | d :: ds => if d = c then true else pyInAux c ds

/-- Python `':' in image`-style membership test. -/
def pyIn (c : Char) (s : String) : Bool := pyInAux c s.data

/-- Python `os.path.basename`: the component after the last slash. -/
def pyBasenameAux : List Char → List Char → List Char
  | [], acc => acc.reverse
  | c :: cs, acc => if c = '/' then pyBasenameAux cs [] else pyBasenameAux cs (c :: acc)

/-- Python `os.path.basename` on a string. -/
def pyBasename (s : String) : String := String.mk (pyBasenameAux s.data [])

/-- Python `os.path.split(p)[0]` (used by the source as
`layer_id = split(layer)[0]`): the text before the last slash —
`posixpath.split` takes `p[:rfind('/')+1]` and strips its trailing
slashes unless it consists only of slashes. -/
def pySplitHead (s : String) : String :=
  let head0 := (s.data.reverse.dropWhile (fun c => c ≠ '/')).reverse
  if head0.all (fun c => c = '/') then String.mk head0
  else String.mk ((head0.reverse.dropWhile (fun c => c = '/')).reverse)

/-- Does `p` start the string `s`?  (Bool, kernel-computable.) -/
def strStarts (p s : String) : Bool := decide (s.data.take p.data.length = p.data)

/-- Does `p` end the string `s`?  (Bool, kernel-computable.) -/
def strEndsWith (p s : String) : Bool :=
  decide (s.data.drop (s.data.length - p.data.length) = p.data)

/-! ## Command rendering (source lines 80-81) -/

/-- The `command` argument: "either string or list arguments" per the
source docstring. -/
inductive Command where
  | ofStr (s : String)
  | ofList (xs : List String)
deriving DecidableEq

/-- Source lines 80-81:

    if isinstance(command,str): command=[command.split()]
    command = ' '.join('"'+str(x)+'"' for x in command)

Note that a string command is wrapped as `[command.split()]` — a
one-element list whose element is the token LIST — so in the string case
the single `str(x)` is the Python repr of that list. -/
def renderCommand : Command → String
  | .ofStr s => "\"" ++ pyStrList (pySplit s) ++ "\""
  | .ofList xs => joinSep " " (xs.map (fun x => "\"" ++ x ++ "\""))

/-- Source line 82: `entrypoint = '--entrypoint '+entrypoint if entrypoint
else ''` (Python truthiness: `None` and `""` both yield `''`). -/
def renderEntrypoint : Option String → String
  | none => ""
  | some e => if e = "" then "" else "--entrypoint " ++ e

/-- The `boinc_app` startup script synthesized at source lines 83-105
(after `dedent` and `fmt` interpolation).  The image-reassembly step is
the literal line `cat /root/shared/image/*.tar | tar xi -C /tmp/image`:
a shell glob over whatever archives are staged, with no reference to the
manifest's layer list. -/
def renderScript (prerun postrun : String) (entrypoint : Option String)
    (image cmdText : String) : String :=
  "\n#!/bin/sh\nset -e \n\necho \"Importing Docker data from BOINC...\"\n" ++
  "mkdir -p /tmp/image\n" ++
  "cat /root/shared/image/*.tar | tar xi -C /tmp/image\n" ++
  "tar cf - -C /tmp/image . | docker load \n" ++
  "rm -rf /tmp/image\n\n" ++
  "echo \"Prerun diagnostics...\"\ndocker images\ndocker ps -a\n" ++
  "du -sh /var/lib/docker\nfree -m\n\n" ++
  "echo \"Prerun commands...\"\n" ++ prerun ++ "\n\n" ++
  "echo \"Running... \"\n" ++
  "docker run --rm -v /root/shared:/root/shared " ++
    renderEntrypoint entrypoint ++ " " ++ image ++ " " ++ cmdText ++ "\n\n" ++
  "echo \"Postrun commands...\"\n" ++ postrun ++ "\n"

/-! ## Staged files and the input template (source lines 74-77, 108-144) -/

/-- One `input_files` entry: `(open_name, backing, flags)`.  The backing
file is identified by its filename; archive contents are carried by the
cache model where they matter. -/
structure StagedFile where
  open_name : String
  backing : String
  flags : List String
deriving DecidableEq

/-- Source line 110: `layer_flags = ['sticky','no_delete','gzip']`. -/
def layer_flags : List String := ["sticky", "no_delete", "gzip"]

/-- A node of the generated XML input template (tag, text, children). -/
inductive Xml where
  | node (tag : String) (txt : String) (children : List Xml)

def Xml.tag : Xml → String
  | .node t _ _ => t

def Xml.txt : Xml → String
  | .node _ x _ => x

def Xml.children : Xml → List Xml
  | .node _ _ c => c

/-- One `file_info` element (source lines 135-138): a `number` child with
text `str(i)`, then one childless element per flag. -/
def fileInfoElem (i : Nat) (flags : List String) : Xml :=
  .node "file_info" "" (.node "number" (toString i) [] ::
    flags.map (fun fl => Xml.node fl "" []))

/-- One `file_ref` element (source lines 139-142): `file_number`,
`open_name`, `copy_file`. -/
def fileRefElem (i : Nat) (open_name : String) : Xml :=
  .node "file_ref" "" [.node "file_number" (toString i) [],
    .node "open_name" open_name [], .node "copy_file" "" []]

/-- The `file_info` elements for the staged files starting at index `i`
(the `enumerate(input_files)` loop). -/
def fileInfoElems : Nat → List StagedFile → List Xml
  | _, [] => []
  | i, f :: fs => fileInfoElem i f.flags :: fileInfoElems (i + 1) fs

/-- The `file_ref` elements for the staged files starting at index `i`. -/
def fileRefElems : Nat → List StagedFile → List Xml
  | _, [] => []
  | i, f :: fs => fileRefElem i f.open_name :: fileRefElems (i + 1) fs

/-- The input template (source lines 133-142): the `workunit` element is
created first, so it is the first child of the root, followed by the
`file_info` elements; the `file_ref` elements live inside `workunit`. -/
def buildTemplate (files : List StagedFile) : Xml :=
  .node "input_template" ""
    (Xml.node "workunit" "" (fileRefElems 0 files) :: fileInfoElems 0 files)

/-- The `file_info` declarations of a template document. -/
def templateFileInfos (t : Xml) : List Xml :=
  t.children.filter (fun x => x.tag = "file_info")

/-- The `file_ref` declarations inside the `workunit` element(s). -/
def templateFileRefs (t : Xml) : List Xml :=
  (((t.children.filter (fun x => x.tag = "workunit")).map Xml.children).flatten).filter
    (fun x => x.tag = "file_ref")

/-- The text of the first child with the given tag (empty if none). -/
def childText (t : Xml) (tagName : String) : String :=
  (((t.children.filter (fun c => c.tag = tagName)).map Xml.txt).headD "")

def infoNumber (x : Xml) : String := childText x "number"

def refNumber (x : Xml) : String := childText x "file_number"

def refOpenName (x : Xml) : String := childText x "open_name"

/-! ## The content-addressed cache store (spec §4.2)

The shared download store, keyed by deterministic archive filename.  An
entry records what a completed write put there; `halfWritten` is the state
a file is left in when the external write producing it faults midway. -/

inductive Entry where
  | layerTar
  | imageTar (manifestLayers : List String)
  | gzArchive
  | halfWritten
deriving DecidableEq

abbrev Cache := List (String × Entry)

/-- Lookup by filename (later writes shadow earlier ones). -/
def cacheFind : Cache → String → Option Entry
  | [], _ => none
  | (n, e) :: c, m => if n = m then some e else cacheFind c m

/-- The `exists(path)` check of the source, on the resolved filename. -/
def cacheHas (c : Cache) (n : String) : Bool := (cacheFind c n).isSome

/-- A completed write of `e` under filename `n`. -/
def cacheAdd (c : Cache) (n : String) (e : Entry) : Cache := (n, e) :: c

/-- The filenames present in the store. -/
def cacheNames (c : Cache) : List String := c.map Prod.fst

/-- Externals: `docker inspect --format "{{ .Id }}"` (after the source's
`.split(':')[1]` post-processing) and the `Layers` list of the
`manifest.json` produced by `docker save`, keyed by image id. -/
structure Env where
  imageId : String → String
  layersOf : String → List String

/-- Source line 53: `if ':' not in image: image+=':latest'`. -/
def normalizeImage (s : String) : String := if pyIn ':' s then s else s ++ ":latest"

/-- `layer_id = split(layer)[0]` (source line 114). -/
def layerIdOf (layer : String) : String := pySplitHead layer

/-- `layer_filename = "layer_{layer_id}.tar"` (source line 115). -/
def layerFilenameOf (layer : String) : String := "layer_" ++ layerIdOf layer ++ ".tar"

/-- The staged-file entry appended for a layer (source line 117). -/
def stagedLayer (l : String) : StagedFile :=
  ⟨"shared/image/" ++ layerFilenameOf l, layerFilenameOf l, layer_flags⟩

/-- The two cache writes of one layer extraction (source lines 120-121):
`tar cvf {layer_path} ...` followed by `gzip -k {layer_path}`.  Both
target the FINAL cache path returned by `dir_hier_path` — there is no
temporary name and no rename. -/
def extractLayer (c : Cache) (l : String) : Cache :=
  cacheAdd (cacheAdd c (layerFilenameOf l) .layerTar) (layerFilenameOf l ++ ".gz") .gzArchive

/-- The per-layer loop (source lines 113-121), threading the live store
through the `exists` checks.  Returns
`(staged entries, extracted layer ids, cache writes in order, final store)`. -/
def layerLoop (ne : Bool) : List String → Cache →
    List StagedFile × List String × List (String × Entry) × Cache
  | [], c => ([], [], [], c)
  | l :: ls, c =>
    if ne && ! cacheHas c (layerFilenameOf l) then
      ((stagedLayer l :: (layerLoop ne ls (extractLayer c l)).1),
       (layerIdOf l :: (layerLoop ne ls (extractLayer c l)).2.1),
       ((layerFilenameOf l, Entry.layerTar) :: (layerFilenameOf l ++ ".gz", Entry.gzArchive) ::
         (layerLoop ne ls (extractLayer c l)).2.2.1),
       (layerLoop ne ls (extractLayer c l)).2.2.2)
    else
      ((stagedLayer l :: (layerLoop ne ls c).1),
       (layerLoop ne ls c).2.1,
       (layerLoop ne ls c).2.2.1,
       (layerLoop ne ls c).2.2.2)

/-- The observable result of one packaging run. -/
structure RunResult where
  image : String
  image_id : String
  image_filename : String
  need_extract : Bool
  manifest : List String
  script : String
  staged : List StagedFile
  extractions : List String
  writes : List (String × Entry)
  cacheEnd : Cache
  template : Xml

/-- The tail of the run once `need_extract` and the manifest are settled
(source lines 74-144): extra input files, script synthesis, the layer
loop, the image-metadata archive (written only under `need_extract`,
source lines 125-129, again directly at its final path), and the input
template. -/
def mkResult (env : Env) (cache : Cache) (image : String) (command : Command)
    (extras : List StagedFile) (entrypoint : Option String) (prerun postrun : String)
    (need_extract : Bool) (manifest : List String) : RunResult :=
  let image_id := env.imageId image
  let image_filename := "image_" ++ image_id ++ ".tar"
  let script := renderScript prerun postrun entrypoint image (renderCommand command)
  let files0 := extras ++ [⟨"shared/boinc_app", "boinc_app", []⟩]
  let r := layerLoop need_extract manifest cache
  let files1 := files0 ++ r.1 ++
    [⟨"shared/image/" ++ image_filename, image_filename, layer_flags⟩]
  let imageWrites : List (String × Entry) :=
    if need_extract then
      [(image_filename, Entry.imageTar manifest), (image_filename ++ ".gz", Entry.gzArchive)]
    else []
  let cacheEnd :=
    if need_extract then
      cacheAdd (cacheAdd r.2.2.2 image_filename (Entry.imageTar manifest))
        (image_filename ++ ".gz") Entry.gzArchive
    else r.2.2.2
  { image := image, image_id := image_id, image_filename := image_filename,
    need_extract := need_extract, manifest := manifest, script := script,
    staged := files1, extractions := r.2.1, writes := r.2.2.1 ++ imageWrites,
    cacheEnd := cacheEnd, template := buildTemplate files1 }

/-- The body of `boinc2docker_create_work` after tag normalization
(source lines 56-147).  The image cache check (lines 58-70): a present
image archive is opened and its embedded `manifest.json` is read — a
present file that is not a readable image archive makes `tarfile` raise
(`none`); an absent one triggers `docker save` into the scratch
directory, whose manifest is the daemon's.  Defaults for `None`
arguments follow source lines 48-51. -/
def createWorkBody (env : Env) (cache : Cache) (image : String)
    (command : Option Command) (input_files : Option (List (String × List String)))
    (entrypoint : Option String) (prerun postrun : Option String) : Option RunResult :=
  let extras := (input_files.getD []).map
    (fun p => (⟨p.1, pyBasename p.1, p.2⟩ : StagedFile))
  match cacheFind cache ("image_" ++ env.imageId image ++ ".tar") with
  | some (.imageTar ls) =>
    some (mkResult env cache image (command.getD (.ofStr "")) extras entrypoint
      (prerun.getD "") (postrun.getD "") false ls)
  | some _ => none
  | none =>
    some (mkResult env cache image (command.getD (.ofStr "")) extras entrypoint
      (prerun.getD "") (postrun.getD "") true (env.layersOf (env.imageId image)))

/-- `boinc2docker_create_work`: tag defaulting (source line 53) followed
by the body. -/
def boinc2docker_create_work (env : Env) (cache : Cache) (image : String)
    (command : Option Command) (input_files : Option (List (String × List String)))
    (entrypoint : Option String) (prerun postrun : Option String) : Option RunResult :=
  createWorkBody env cache (normalizeImage image) command input_files entrypoint prerun postrun

/-! ## Interruption, faults and cleanup (source lines 149-156) -/

/-- Replay a list of completed writes onto the store. -/
def applyWrites (c : Cache) (ws : List (String × Entry)) : Cache :=
  ws.foldl (fun c w => cacheAdd c w.1 w.2) c

/-- The store after the run is aborted around write `k`: the first `k`
writes completed; with `midWrite` the aborted `k`-th write has already
created its FINAL-named file and leaves it half written (the source
writes every archive directly at its `dir_hier_path`). -/
def cacheAfterStop (c : Cache) (ws : List (String × Entry)) (k : Nat) (midWrite : Bool) :
    Cache :=
  if midWrite then
    match ws.drop k with
    | [] => applyWrites c (ws.take k)
    | w :: _ => cacheAdd (applyWrites c (ws.take k)) w.1 Entry.halfWritten
  else applyWrites c (ws.take k)

/-- What the caller and the filesystem observe of one orchestrated run. -/
structure ExecOutcome where
  errorToCaller : Bool
  cleanupRan : Bool
  scratchRemoved : Bool
  cacheNames : List String
deriving DecidableEq

/-- The cache writes the body performs when it runs unhindered (none
when it raises at the manifest read, before any write). -/
def runWrites (env : Env) (cache : Cache) (image : String)
    (command : Option Command) (input_files : Option (List (String × List String)))
    (entrypoint : Option String) (prerun postrun : Option String) : List (String × Entry) :=
  match boinc2docker_create_work env cache image command input_files entrypoint prerun
    postrun with
  | none => []
  | some r => r.writes

/-- The `try / except KeyboardInterrupt / finally` structure (source
lines 56, 149-156) around the run:

* `stop = none`: the body ran to completion — or raised the `tarfile`
  failure on an unreadable cached image archive (the `none` run result),
  which happens before any write and propagates.
* `stop = some (k, true)`: a `KeyboardInterrupt` ended the body around
  write `k` (k = 0 covers any point before the first write); the
  `except KeyboardInterrupt` clause swallows it, so no error reaches the
  caller and the function falls through `finally` to return normally.
* `stop = some (k, false)`: any other exception ended the body there; it
  propagates to the caller after `finally`.

The `finally` block always runs `rm -rf {tmpdir}`; its own failure
(`cleanupFails`) is swallowed by the inner `try/except: pass` and never
changes what the caller sees. -/
def orchestrate (env : Env) (cache : Cache) (image : String)
    (command : Option Command) (input_files : Option (List (String × List String)))
    (entrypoint : Option String) (prerun postrun : Option String)
    (stop : Option (Nat × Bool)) (midWrite cleanupFails : Bool) : ExecOutcome :=
  match stop with
  | some (k, isInterrupt) =>
    { errorToCaller := ! isInterrupt, cleanupRan := true, scratchRemoved := ! cleanupFails,
      cacheNames := cacheNames (cacheAfterStop cache
        (runWrites env cache image command input_files entrypoint prerun postrun) k midWrite) }
  | none =>
    match boinc2docker_create_work env cache image command input_files entrypoint prerun
      postrun with
    | none =>
      { errorToCaller := true, cleanupRan := true, scratchRemoved := ! cleanupFails,
        cacheNames := cacheNames cache }
    | some r =>
      { errorToCaller := false, cleanupRan := true, scratchRemoved := ! cleanupFails,
        cacheNames := cacheNames (applyWrites cache r.writes) }

/-- A final (fully-named) archive filename of the cache-store layout
(spec §6): `layer_<id>.tar[.gz]` or `image_<id>.tar[.gz]`. -/
def isFinalArchiveName (n : String) : Prop :=
  ∃ id, n = "layer_" ++ id ++ ".tar" ∨ n = "layer_" ++ id ++ ".tar" ++ ".gz" ∨
    n = "image_" ++ id ++ ".tar" ∨ n = "image_" ++ id ++ ".tar" ++ ".gz"

/-! ## The in-job reassembly glob (startup script, source line 87)

`cat /root/shared/image/*.tar` concatenates the staged archives in the
order the POSIX shell expands the glob: the matching filenames sorted
lexicographically by code point — not the manifest order. -/

/-- Lexicographic (code-point) order on character lists. -/
def lexLeB : List Char → List Char → Bool
  | [], _ => true
  | _ :: _, [] => false
  | a :: as, b :: bs =>
    if a.toNat < b.toNat then true
    else if b.toNat < a.toNat then false
    else lexLeB as bs

/-- Lexicographic order on filenames, as the shell sorts glob matches. -/
def globLe (a b : String) : Prop := lexLeB a.data b.data = true

instance globLe.decidableRel : DecidableRel globLe := fun a b => by
  unfold globLe
  infer_instance

/-- The order in which `cat /root/shared/image/*.tar` concatenates the
files present in the shared image directory: the names matching `*.tar`,
sorted lexicographically. -/
def reassemblyOrder (present : List String) : List String :=
  List.insertionSort globLe (present.filter (fun n => strEndsWith ".tar" n))

/-- The archive filenames a run stages into `shared/image/` (these are
the files the glob ranges over in the job's shared directory). -/
def sharedImageTarNames (r : RunResult) : List String :=
  (r.staged.filter (fun f => strStarts "shared/image/" f.open_name)).map StagedFile.backing

/-! ## Concrete environments and runs used by counterexamples/witnesses -/

/-- One-layer environment: image id `i0`, manifest layers `[aa/layer.tar]`. -/
def envW : Env := { imageId := fun _ => "i0", layersOf := fun _ => ["aa/layer.tar"] }

/-- Two-layer environment with manifest order `zz` before `aa` (the
lexicographic order of the archive filenames is the reverse). -/
def envW2 : Env := { imageId := fun _ => "i0", layersOf := fun _ => ["zz/layer.tar", "aa/layer.tar"] }

/-- The writes of a fresh one-layer run against an empty store. -/
def writesW5 : List (String × Entry) :=
  ((boinc2docker_create_work envW [] "m:1" none none none none none).map RunResult.writes).getD []

/-- The store left behind when that run faults during its very first
write (`tar cvf` of layer `aa`, already at the final path). -/
def cacheFaultW5 : Cache := cacheAfterStop [] writesW5 0 true

/-- First witness run for idempotence: image `m:1` against an empty store. -/
def r1W : RunResult :=
  (boinc2docker_create_work envW [] "m:1" none none none none none).get (by decide)

/-- Second witness run, against the store the first run left behind. -/
def r2W : RunResult :=
  (boinc2docker_create_work envW r1W.cacheEnd "m:1" none none none none none).get (by decide)

/-- Witness run with one caller-supplied extra input file. -/
def r10W : RunResult :=
  (boinc2docker_create_work envW [] "m:1" none (some [("shared/in.txt", ["gzip"])])
    none none none).get (by decide)

/-- A store holding the image-metadata archive but NO layer archive. -/
def cHitW : Cache := [("image_i0.tar", Entry.imageTar ["aa/layer.tar"])]

/-- Witness run over the two-layer environment, with an (empty) explicit
extra-input list. -/
def r2cW : RunResult :=
  (boinc2docker_create_work envW2 [] "m:1" none (some []) none none none).get (by decide)

end Boinc2Docker

namespace Boinc2Docker

/-! # Theorems -/

/-! ## Xml accessor lemmas -/

@[simp] theorem Xml.tag_node (t x : String) (c : List Xml) : (Xml.node t x c).tag = t := rfl

@[simp] theorem Xml.txt_node (t x : String) (c : List Xml) : (Xml.node t x c).txt = x := rfl

@[simp] theorem Xml.children_node (t x : String) (c : List Xml) :
    (Xml.node t x c).children = c := rfl

/-! ## Template lemmas -/

theorem fileInfoElems_length (i : Nat) (fs : List StagedFile) :
    (fileInfoElems i fs).length = fs.length := by
  induction fs generalizing i with
  | nil => rfl
  | cons f fs ih => simp [fileInfoElems, ih]

theorem fileRefElems_length (i : Nat) (fs : List StagedFile) :
    (fileRefElems i fs).length = fs.length := by
  induction fs generalizing i with
  | nil => rfl
  | cons f fs ih => simp [fileRefElems, ih]

theorem fileInfoElems_tags (i : Nat) (fs : List StagedFile) :
    ∀ x ∈ fileInfoElems i fs, x.tag = "file_info" := by
  induction fs generalizing i with
  | nil => simp [fileInfoElems]
  | cons f fs ih =>
    simp only [fileInfoElems, List.mem_cons]
    rintro x (rfl | hx)
    · rfl
    · exact ih _ x hx

theorem fileRefElems_tags (i : Nat) (fs : List StagedFile) :
    ∀ x ∈ fileRefElems i fs, x.tag = "file_ref" := by
  induction fs generalizing i with
  | nil => simp [fileRefElems]
  | cons f fs ih =>
    simp only [fileRefElems, List.mem_cons]
    rintro x (rfl | hx)
    · rfl
    · exact ih _ x hx

theorem templateFileInfos_buildTemplate (files : List StagedFile) :
    templateFileInfos (buildTemplate files) = fileInfoElems 0 files := by
  have h : ∀ x ∈ fileInfoElems 0 files, decide (x.tag = "file_info") = true :=
    fun x hx => decide_eq_true (fileInfoElems_tags 0 files x hx)
  simp only [templateFileInfos, buildTemplate, Xml.children_node, List.filter_cons]
  rw [if_neg (by simp), List.filter_eq_self.mpr h]

theorem templateFileRefs_buildTemplate (files : List StagedFile) :
    templateFileRefs (buildTemplate files) = fileRefElems 0 files := by
  have h0 : ∀ x ∈ fileInfoElems 0 files, decide (x.tag = "workunit") = false := by
    intro x hx
    rw [fileInfoElems_tags 0 files x hx]
    decide
  have h1 : (fileInfoElems 0 files).filter (fun x => decide (x.tag = "workunit")) = [] :=
    List.filter_eq_nil_iff.mpr (fun a ha => by rw [h0 a ha]; simp)
  have h2 : ∀ x ∈ fileRefElems 0 files, decide (x.tag = "file_ref") = true :=
    fun x hx => decide_eq_true (fileRefElems_tags 0 files x hx)
  simp only [templateFileRefs, buildTemplate, Xml.children_node, List.filter_cons]
  rw [if_pos (by rfl), h1]
  simp only [List.map_cons, List.map_nil, List.flatten_cons, List.flatten_nil,
    Xml.children_node, List.append_nil]
  exact List.filter_eq_self.mpr h2

theorem fileInfoElems_numbers (i : Nat) (fs : List StagedFile) :
    (fileInfoElems i fs).map infoNumber = (List.range' i fs.length).map toString := by
  induction fs generalizing i with
  | nil => rfl
  | cons f fs ih =>
    simp only [fileInfoElems, List.map_cons, List.length_cons, List.range'_succ,
      ih (i + 1)]
    congr 1

theorem fileRefElems_numbers (i : Nat) (fs : List StagedFile) :
    (fileRefElems i fs).map refNumber = (List.range' i fs.length).map toString := by
  induction fs generalizing i with
  | nil => rfl
  | cons f fs ih =>
    simp only [fileRefElems, List.map_cons, List.length_cons, List.range'_succ,
      ih (i + 1)]
    congr 1

theorem fileRefElems_open_names (i : Nat) (fs : List StagedFile) :
    (fileRefElems i fs).map refOpenName = fs.map StagedFile.open_name := by
  induction fs generalizing i with
  | nil => rfl
  | cons f fs ih =>
    simp only [fileRefElems, List.map_cons, ih (i + 1)]
    congr 1

theorem fileInfoElems_child_tags (i : Nat) (fs : List StagedFile) :
    (fileInfoElems i fs).map (fun x => x.children.map Xml.tag) =
      fs.map (fun f => "number" :: f.flags) := by
  induction fs generalizing i with
  | nil => rfl
  | cons f fs ih =>
    simp only [fileInfoElems, List.map_cons, ih (i + 1)]
    congr 1
    simp only [fileInfoElem, Xml.children_node, List.map_cons, List.map_map,
      Xml.tag_node]
    rw [show (Xml.tag ∘ fun fl => Xml.node fl "" []) = id from funext (fun fl => rfl),
      List.map_id]

/-! ## Claims C4 and C7 -/

/-- C4: for every staged-file sequence of length N, the generated input
template contains exactly N `file_info` declarations and exactly N
`file_ref` declarations; the indices of each form the dense range
0..N-1 in staged-file order, and the `open_name` at each index equals
the logical open-name of the staged file at that index. -/
theorem C4_manifest_consistency (files : List StagedFile) :
    (templateFileInfos (buildTemplate files)).length = files.length ∧
    (templateFileRefs (buildTemplate files)).length = files.length ∧
    (templateFileInfos (buildTemplate files)).map infoNumber =
      (List.range files.length).map toString ∧
    (templateFileRefs (buildTemplate files)).map refNumber =
      (List.range files.length).map toString ∧
    (templateFileRefs (buildTemplate files)).map refOpenName =
      files.map StagedFile.open_name := by
  rw [templateFileInfos_buildTemplate, templateFileRefs_buildTemplate,
    List.range_eq_range']
  exact ⟨fileInfoElems_length 0 files, fileRefElems_length 0 files,
    fileInfoElems_numbers 0 files, fileRefElems_numbers 0 files,
    fileRefElems_open_names 0 files⟩

/-- C7: each `file_info` carries one child marker per flag of the staged
file and none beyond (its children are the `number` element followed by
exactly the flag markers); in particular a staged file with flag-set
`{sticky, no_delete, gzip}` (the `layer_flags` of every layer archive and
of the image-metadata archive) yields exactly those three markers. -/
theorem C7_flag_fidelity (files : List StagedFile) (j : Nat) :
    (templateFileInfos (buildTemplate files)).map (fun x => x.children.map Xml.tag) =
      files.map (fun f => "number" :: f.flags) ∧
    (fileInfoElem j layer_flags).children.map Xml.tag =
      ["number", "sticky", "no_delete", "gzip"] := by
  constructor
  · rw [templateFileInfos_buildTemplate]
    exact fileInfoElems_child_tags 0 files
  · rfl

/-! ## Claim C1: string vs list command (code bug) -/

set_option maxRecDepth 16384 in
/-- C1 (the claim fails on the code): with the string command
`"echo foo"` the rendered command text is ONE quoted token holding the
Python repr of the token list, `"['echo', 'foo']"`, while the token-list
command `["echo","foo"]` renders `"echo" "foo"` — so the two synthesized
startup scripts differ.  The `[command.split()]` wrapping at source line
80 puts the token list into a one-element list, contradicting the
docstring's equivalent examples `['echo','foo']` / `'echo foo'`. -/
theorem C1_string_list_divergence :
    renderCommand (Command.ofStr "echo foo") = "\"" ++ pyStrList ["echo", "foo"] ++ "\"" ∧
    renderCommand (Command.ofList ["echo", "foo"]) = "\"echo\" \"foo\"" ∧
    renderCommand (Command.ofStr "echo foo") ≠ renderCommand (Command.ofList ["echo", "foo"]) ∧
    ((boinc2docker_create_work envW [] "m:1" (some (Command.ofStr "echo foo")) none none
        none none).map RunResult.script ≠
      (boinc2docker_create_work envW [] "m:1" (some (Command.ofList ["echo", "foo"])) none none
        none none).map RunResult.script) := by
  refine ⟨rfl, rfl, by decide, by decide⟩

/-! ## Claim C8: tag defaulting -/

theorem pyInAux_append (c : Char) (l1 l2 : List Char) :
    pyInAux c (l1 ++ l2) = (pyInAux c l1 || pyInAux c l2) := by
  induction l1 with
  | nil => rfl
  | cons d ds ih => by_cases hd : d = c <;> simp [pyInAux, hd, ih]

theorem normalizeImage_append_latest (s : String) (h : pyIn ':' s = false) :
    normalizeImage (s ++ ":latest") = normalizeImage s := by
  have h2 : pyIn ':' (s ++ ":latest") = true := by
    have hd : (s ++ ":latest").data = s.data ++ (":latest").data := String.data_append ..
    unfold pyIn
    rw [hd, pyInAux_append]
    have hs : pyInAux ':' s.data = false := h
    rw [hs]
    rfl
  unfold normalizeImage
  rw [h, h2]
  simp

/-- C8: an image reference containing no colon (i.e. given without a tag)
behaves identically to the same reference with `:latest` appended: the
two runs produce equal results in full — in particular the derived image
and layer cache keys coincide. -/
theorem C8_tag_defaulting (env : Env) (cache : Cache) (image : String)
    (command : Option Command) (input_files : Option (List (String × List String)))
    (entrypoint : Option String) (prerun postrun : Option String)
    (h : pyIn ':' image = false) :
    boinc2docker_create_work env cache image command input_files entrypoint prerun postrun =
      boinc2docker_create_work env cache (image ++ ":latest") command input_files entrypoint
        prerun postrun := by
  unfold boinc2docker_create_work
  rw [normalizeImage_append_latest image h]

/-- Witness for C8 at the spec's example `myimage`. -/
theorem C8_tag_defaulting_witness :
    pyIn ':' "myimage" = false ∧
    boinc2docker_create_work envW [] "myimage" none none none none none =
      boinc2docker_create_work envW [] "myimage:latest" none none none none none := by
  refine ⟨by decide, ?_⟩
  exact C8_tag_defaulting envW [] "myimage" none none none none none (by decide)

/-! ## Claim C10: staged-file order -/

theorem layerLoop_staged (ne : Bool) (ls : List String) (c : Cache) :
    (layerLoop ne ls c).1 = ls.map stagedLayer := by
  induction ls generalizing c with
  | nil => rfl
  | cons l ls ih =>
    unfold layerLoop
    cases hb : (ne && ! cacheHas c (layerFilenameOf l)) <;> simp [hb, ih]

theorem mkResult_staged (env : Env) (cache : Cache) (image : String) (command : Command)
    (extras : List StagedFile) (entrypoint : Option String) (prerun postrun : String)
    (ne : Bool) (manifest : List String) :
    (mkResult env cache image command extras entrypoint prerun postrun ne manifest).staged =
      extras ++ [⟨"shared/boinc_app", "boinc_app", []⟩] ++
      (layerLoop ne manifest cache).1 ++
      [⟨"shared/image/" ++ ("image_" ++ env.imageId image ++ ".tar"),
        "image_" ++ env.imageId image ++ ".tar", layer_flags⟩] := rfl

theorem mkResult_manifest (env : Env) (cache : Cache) (image : String) (command : Command)
    (extras : List StagedFile) (entrypoint : Option String) (prerun postrun : String)
    (ne : Bool) (manifest : List String) :
    (mkResult env cache image command extras entrypoint prerun postrun ne manifest).manifest =
      manifest := rfl

theorem mkResult_image_filename (env : Env) (cache : Cache) (image : String)
    (command : Command) (extras : List StagedFile) (entrypoint : Option String)
    (prerun postrun : String) (ne : Bool) (manifest : List String) :
    (mkResult env cache image command extras entrypoint prerun postrun ne
      manifest).image_filename = "image_" ++ env.imageId image ++ ".tar" := rfl

/-- Helper: the staged sequence of any successful run, as built at
source lines 74-125. -/
theorem run_staged (env : Env) (cache : Cache) (image : String)
    (command : Option Command) (extras : List (String × List String))
    (entrypoint : Option String) (prerun postrun : Option String) (r : RunResult)
    (h : boinc2docker_create_work env cache image command (some extras) entrypoint prerun
      postrun = some r) :
    r.staged =
      extras.map (fun p => (⟨p.1, pyBasename p.1, p.2⟩ : StagedFile)) ++
      [⟨"shared/boinc_app", "boinc_app", []⟩] ++
      r.manifest.map stagedLayer ++
      [⟨"shared/image/" ++ r.image_filename, r.image_filename, layer_flags⟩] := by
  unfold boinc2docker_create_work createWorkBody at h
  cases hfind : cacheFind cache ("image_" ++ env.imageId (normalizeImage image) ++ ".tar") with
  | none =>
    rw [hfind] at h
    simp only [Option.some.injEq] at h
    subst h
    rw [mkResult_staged, mkResult_manifest, mkResult_image_filename, layerLoop_staged]
    rfl
  | some e =>
    rw [hfind] at h
    cases e with
    | imageTar ls =>
      simp only [Option.some.injEq] at h
      subst h
      rw [mkResult_staged, mkResult_manifest, mkResult_image_filename, layerLoop_staged]
      rfl
    | layerTar => cases h
    | gzArchive => cases h
    | halfWritten => cases h

/-- Helper: the canonical image archive filename of any successful run. -/
theorem run_image_filename (env : Env) (cache : Cache) (image : String)
    (command : Option Command) (input_files : Option (List (String × List String)))
    (entrypoint : Option String) (prerun postrun : Option String) (r : RunResult)
    (h : boinc2docker_create_work env cache image command input_files entrypoint prerun
      postrun = some r) :
    r.image_filename = "image_" ++ env.imageId (normalizeImage image) ++ ".tar" := by
  unfold boinc2docker_create_work createWorkBody at h
  cases hfind : cacheFind cache ("image_" ++ env.imageId (normalizeImage image) ++ ".tar") with
  | none =>
    rw [hfind] at h
    simp only [Option.some.injEq] at h
    subst h
    rfl
  | some e =>
    rw [hfind] at h
    cases e with
    | imageTar ls =>
      simp only [Option.some.injEq] at h
      subst h
      rfl
    | layerTar => cases h
    | gzArchive => cases h
    | halfWritten => cases h

/-- C10: the staged-file sequence is: caller-supplied extra input files
first in their given order (open name, basename backing), then the
synthesized startup script with open-name `shared/boinc_app` and an
empty flag-set, then one entry per layer in the image manifest's layer
order, then the image-metadata archive last. -/
theorem C10_staged_order (env : Env) (cache : Cache) (image : String)
    (command : Option Command) (extras : List (String × List String))
    (entrypoint : Option String) (prerun postrun : Option String) (r : RunResult)
    (h : boinc2docker_create_work env cache image command (some extras) entrypoint prerun
      postrun = some r) :
    r.staged =
      extras.map (fun p => (⟨p.1, pyBasename p.1, p.2⟩ : StagedFile)) ++
      [⟨"shared/boinc_app", "boinc_app", []⟩] ++
      r.manifest.map stagedLayer ++
      [⟨"shared/image/" ++ r.image_filename, r.image_filename, layer_flags⟩] :=
  run_staged env cache image command extras entrypoint prerun postrun r h

set_option maxRecDepth 16384 in
/-- Witness for C10: one extra input file, one layer. -/
theorem C10_staged_order_witness :
    r10W.staged =
      [⟨"shared/in.txt", "in.txt", ["gzip"]⟩, ⟨"shared/boinc_app", "boinc_app", []⟩,
       ⟨"shared/image/layer_aa.tar", "layer_aa.tar", layer_flags⟩,
       ⟨"shared/image/image_i0.tar", "image_i0.tar", layer_flags⟩] := by
  rw [C10_staged_order envW [] "m:1" none [("shared/in.txt", ["gzip"])] none none none r10W
    (Option.some_get _).symm]
  decide

/-! ## Cache-store lemmas -/

theorem cacheFind_add_self (c : Cache) (n : String) (e : Entry) :
    cacheFind (cacheAdd c n e) n = some e := by
  show (if n = n then some e else cacheFind c n) = some e
  rw [if_pos rfl]

theorem cacheFind_add_ne (c : Cache) (n m : String) (e : Entry) (h : n ≠ m) :
    cacheFind (cacheAdd c n e) m = cacheFind c m := by
  show (if n = m then some e else cacheFind c m) = cacheFind c m
  rw [if_neg h]

theorem layerLoop_cons_true (ne : Bool) (l : String) (ls : List String) (c : Cache)
    (h : (ne && ! cacheHas c (layerFilenameOf l)) = true) :
    layerLoop ne (l :: ls) c =
      ((stagedLayer l :: (layerLoop ne ls (extractLayer c l)).1),
       (layerIdOf l :: (layerLoop ne ls (extractLayer c l)).2.1),
       ((layerFilenameOf l, Entry.layerTar) :: (layerFilenameOf l ++ ".gz", Entry.gzArchive) ::
         (layerLoop ne ls (extractLayer c l)).2.2.1),
       (layerLoop ne ls (extractLayer c l)).2.2.2) := by
  simp only [layerLoop]
  rw [if_pos h]

theorem layerLoop_cons_false (ne : Bool) (l : String) (ls : List String) (c : Cache)
    (h : (ne && ! cacheHas c (layerFilenameOf l)) = false) :
    layerLoop ne (l :: ls) c =
      ((stagedLayer l :: (layerLoop ne ls c).1), (layerLoop ne ls c).2.1,
       (layerLoop ne ls c).2.2.1, (layerLoop ne ls c).2.2.2) := by
  simp only [layerLoop]
  rw [if_neg (by simp [h])]

theorem cacheHas_add_of_has (c : Cache) (n m : String) (e : Entry)
    (h : cacheHas c m = true) : cacheHas (cacheAdd c n e) m = true := by
  unfold cacheHas at *
  by_cases hn : n = m
  · subst hn
    rw [cacheFind_add_self]
    rfl
  · rw [cacheFind_add_ne c n m e hn]
    exact h

theorem string_append_ne_self (s t : String) (ht : t.length ≠ 0) : s ++ t ≠ s := by
  intro h
  have h2 : (s ++ t).length = s.length := by rw [h]
  rw [String.length_append] at h2
  omega

theorem extractLayer_has (c : Cache) (l : String) :
    cacheHas (extractLayer c l) (layerFilenameOf l) = true := by
  unfold extractLayer
  apply cacheHas_add_of_has
  unfold cacheHas
  rw [cacheFind_add_self]
  rfl

theorem layerLoop_has_mono (ne : Bool) (ls : List String) (c : Cache) (m : String)
    (h : cacheHas c m = true) : cacheHas (layerLoop ne ls c).2.2.2 m = true := by
  induction ls generalizing c with
  | nil => exact h
  | cons l ls ih =>
    cases hb : (ne && ! cacheHas c (layerFilenameOf l))
    · rw [layerLoop_cons_false ne l ls c hb]
      exact ih c h
    · rw [layerLoop_cons_true ne l ls c hb]
      exact ih (extractLayer c l) (cacheHas_add_of_has _ _ _ _ (cacheHas_add_of_has _ _ _ _ h))

theorem layerLoop_stages_all (ls : List String) (c : Cache) (l : String) (hl : l ∈ ls) :
    cacheHas (layerLoop true ls c).2.2.2 (layerFilenameOf l) = true := by
  induction ls generalizing c with
  | nil => cases hl
  | cons a as ih =>
    rcases List.mem_cons.mp hl with rfl | h
    · cases hb : (true && ! cacheHas c (layerFilenameOf l))
      · rw [layerLoop_cons_false _ _ _ _ hb]
        have ha : cacheHas c (layerFilenameOf l) = true := by simpa using hb
        exact layerLoop_has_mono true as c _ ha
      · rw [layerLoop_cons_true _ _ _ _ hb]
        exact layerLoop_has_mono true as (extractLayer c l) _ (extractLayer_has c l)
    · cases hb : (true && ! cacheHas c (layerFilenameOf a))
      · rw [layerLoop_cons_false _ _ _ _ hb]
        exact ih c h
      · rw [layerLoop_cons_true _ _ _ _ hb]
        exact ih (extractLayer c a) h

theorem layerLoop_false (ls : List String) (c : Cache) :
    layerLoop false ls c = (ls.map stagedLayer, [], [], c) := by
  induction ls generalizing c with
  | nil => rfl
  | cons l ls ih =>
    unfold layerLoop
    simp [ih]

/-! ## mkResult projection lemmas -/

theorem mkResult_extractions (env : Env) (cache : Cache) (image : String) (command : Command)
    (extras : List StagedFile) (entrypoint : Option String) (prerun postrun : String)
    (ne : Bool) (manifest : List String) :
    (mkResult env cache image command extras entrypoint prerun postrun ne
      manifest).extractions = (layerLoop ne manifest cache).2.1 := rfl

theorem mkResult_writes (env : Env) (cache : Cache) (image : String) (command : Command)
    (extras : List StagedFile) (entrypoint : Option String) (prerun postrun : String)
    (ne : Bool) (manifest : List String) :
    (mkResult env cache image command extras entrypoint prerun postrun ne manifest).writes =
      (layerLoop ne manifest cache).2.2.1 ++
      (if ne then
        [("image_" ++ env.imageId image ++ ".tar", Entry.imageTar manifest),
         ("image_" ++ env.imageId image ++ ".tar" ++ ".gz", Entry.gzArchive)]
      else []) := rfl

theorem mkResult_cacheEnd (env : Env) (cache : Cache) (image : String) (command : Command)
    (extras : List StagedFile) (entrypoint : Option String) (prerun postrun : String)
    (ne : Bool) (manifest : List String) :
    (mkResult env cache image command extras entrypoint prerun postrun ne manifest).cacheEnd =
      (if ne then
        cacheAdd
          (cacheAdd (layerLoop ne manifest cache).2.2.2
            ("image_" ++ env.imageId image ++ ".tar") (Entry.imageTar manifest))
          ("image_" ++ env.imageId image ++ ".tar" ++ ".gz") Entry.gzArchive
      else (layerLoop ne manifest cache).2.2.2) := rfl

theorem mkResult_find_image (env : Env) (cache : Cache) (image : String) (command : Command)
    (extras : List StagedFile) (entrypoint : Option String) (prerun postrun : String)
    (manifest : List String) :
    cacheFind (mkResult env cache image command extras entrypoint prerun postrun true
      manifest).cacheEnd ("image_" ++ env.imageId image ++ ".tar") =
      some (Entry.imageTar manifest) := by
  rw [mkResult_cacheEnd]
  simp only [if_true]
  rw [cacheFind_add_ne _ _ _ _ (string_append_ne_self _ ".gz" (by decide)),
    cacheFind_add_self]

theorem mkResult_layers_present (env : Env) (cache : Cache) (image : String)
    (command : Command) (extras : List StagedFile) (entrypoint : Option String)
    (prerun postrun : String) (manifest : List String) (l : String) (hl : l ∈ manifest) :
    cacheHas (mkResult env cache image command extras entrypoint prerun postrun true
      manifest).cacheEnd (layerFilenameOf l) = true := by
  rw [mkResult_cacheEnd]
  simp only [if_true]
  exact cacheHas_add_of_has _ _ _ _
    (cacheHas_add_of_has _ _ _ _ (layerLoop_stages_all manifest cache l hl))

theorem mkResult_false_extractions (env : Env) (cache : Cache) (image : String)
    (command : Command) (extras : List StagedFile) (entrypoint : Option String)
    (prerun postrun : String) (manifest : List String) :
    (mkResult env cache image command extras entrypoint prerun postrun false
      manifest).extractions = [] := by
  rw [mkResult_extractions, layerLoop_false]

theorem mkResult_false_writes (env : Env) (cache : Cache) (image : String)
    (command : Command) (extras : List StagedFile) (entrypoint : Option String)
    (prerun postrun : String) (manifest : List String) :
    (mkResult env cache image command extras entrypoint prerun postrun false
      manifest).writes = [] := by
  rw [mkResult_writes, layerLoop_false]
  rfl

/-! ## Claim C3: idempotence of re-packaging -/

/-- C3: packaging the image a second time against the store in which the
first run staged the image archive and all layer archives performs zero
layer extractions and zero cache writes; after the first run the image
archive and every layer archive exist in the store, the second run's
manifest equals the first run's, and it stages exactly the same file
sequence (in particular the same layer archive filenames). -/
theorem C3_idempotence (env : Env) (c0 : Cache) (image : String)
    (cmd1 cmd2 : Option Command) (extras : Option (List (String × List String)))
    (ep : Option String) (pre post : Option String) (r1 r2 : RunResult)
    (h0 : cacheHas c0 ("image_" ++ env.imageId (normalizeImage image) ++ ".tar") = false)
    (h1 : boinc2docker_create_work env c0 image cmd1 extras ep pre post = some r1)
    (h2 : boinc2docker_create_work env r1.cacheEnd image cmd2 extras ep pre post = some r2) :
    r2.extractions = [] ∧ r2.writes = [] ∧
    cacheHas r1.cacheEnd r1.image_filename = true ∧
    (∀ l ∈ r2.manifest, cacheHas r1.cacheEnd (layerFilenameOf l) = true) ∧
    r2.manifest = r1.manifest ∧ r2.staged = r1.staged := by
  have hfind0 : cacheFind c0 ("image_" ++ env.imageId (normalizeImage image) ++ ".tar") =
      none := by
    cases hf : cacheFind c0 ("image_" ++ env.imageId (normalizeImage image) ++ ".tar") with
    | none => rfl
    | some e =>
      unfold cacheHas at h0
      rw [hf] at h0
      cases h0
  unfold boinc2docker_create_work createWorkBody at h1 h2
  rw [hfind0] at h1
  simp only [Option.some.injEq] at h1
  subst h1
  rw [mkResult_find_image] at h2
  simp only [Option.some.injEq] at h2
  subst h2
  refine ⟨mkResult_false_extractions .., mkResult_false_writes .., ?_, ?_, rfl, ?_⟩
  · rw [mkResult_image_filename]
    unfold cacheHas
    rw [mkResult_find_image]
    rfl
  · intro l hl
    exact mkResult_layers_present _ _ _ _ _ _ _ _ _ l hl
  · rw [mkResult_staged, mkResult_staged, layerLoop_staged, layerLoop_staged]

set_option maxRecDepth 16384 in
/-- Witness for C3: two runs of image `m:1` over `envW`, the first from
an empty store. -/
theorem C3_idempotence_witness :
    r2W.extractions = [] ∧ r2W.writes = [] ∧
    cacheHas r1W.cacheEnd r1W.image_filename = true ∧
    (∀ l ∈ r2W.manifest, cacheHas r1W.cacheEnd (layerFilenameOf l) = true) ∧
    r2W.manifest = r1W.manifest ∧ r2W.staged = r1W.staged :=
  C3_idempotence envW [] "m:1" none none none none none none r1W r2W (by decide)
    (Option.some_get _).symm (Option.some_get _).symm

/-! ## Claim C9: a cached image archive suppresses all layer extraction -/

/-- C9: when the image's canonical archive is already in the store, the
run performs no extraction and no write at all — even if some layer
archive is absent — while the staged-file list still references every
layer archive filename (and the image archive); conversely a run that
performed any extraction must have started with the image archive absent. -/
theorem C9_cache_hit_no_extraction (env : Env) (c : Cache) (image : String)
    (cmd : Option Command) (extras : Option (List (String × List String)))
    (ep pre post : Option String) (ls : List String)
    (himg : cacheFind c ("image_" ++ env.imageId (normalizeImage image) ++ ".tar") =
      some (Entry.imageTar ls)) :
    ((boinc2docker_create_work env c image cmd extras ep pre post).map RunResult.extractions =
      some []) ∧
    ((boinc2docker_create_work env c image cmd extras ep pre post).map RunResult.writes =
      some []) ∧
    ((boinc2docker_create_work env c image cmd extras ep pre post).map
        (fun r => r.staged.map StagedFile.backing) =
      some ((extras.getD []).map (fun p => pyBasename p.1) ++ ["boinc_app"] ++
        ls.map layerFilenameOf ++
        ["image_" ++ env.imageId (normalizeImage image) ++ ".tar"])) ∧
    (∀ (c' : Cache) (r : RunResult),
      boinc2docker_create_work env c' image cmd extras ep pre post = some r →
      r.extractions ≠ [] →
      cacheHas c' ("image_" ++ env.imageId (normalizeImage image) ++ ".tar") = false) := by
  refine ⟨?_, ?_, ?_, ?_⟩
  · unfold boinc2docker_create_work createWorkBody
    rw [himg]
    simp only [Option.map_some']
    rw [mkResult_false_extractions]
  · unfold boinc2docker_create_work createWorkBody
    rw [himg]
    simp only [Option.map_some']
    rw [mkResult_false_writes]
  · unfold boinc2docker_create_work createWorkBody
    rw [himg]
    simp only [Option.map_some', Option.some.injEq]
    rw [mkResult_staged, layerLoop_staged]
    simp only [List.map_append, List.map_map]
    rfl
  · intro c' r h hne
    unfold boinc2docker_create_work createWorkBody at h
    cases hf : cacheFind c' ("image_" ++ env.imageId (normalizeImage image) ++ ".tar") with
    | none =>
      unfold cacheHas
      rw [hf]
      rfl
    | some e =>
      rw [hf] at h
      cases e with
      | imageTar ls' =>
        simp only [Option.some.injEq] at h
        subst h
        exact absurd (mkResult_false_extractions ..) hne
      | layerTar => cases h
      | gzArchive => cases h
      | halfWritten => cases h

/-- Witness for C9: the store `cHitW` holds the image archive but not the
layer archive `layer_aa.tar`; the run still extracts nothing and stages
that filename. -/
theorem C9_cache_hit_no_extraction_witness :
    cacheHas cHitW "layer_aa.tar" = false ∧
    ((boinc2docker_create_work envW cHitW "m:1" none none none none none).map
      RunResult.extractions = some []) ∧
    ((boinc2docker_create_work envW cHitW "m:1" none none none none none).map
        (fun r => r.staged.map StagedFile.backing) =
      some (["boinc_app"] ++ ["layer_aa.tar"] ++ ["image_i0.tar"])) := by
  have h := C9_cache_hit_no_extraction envW cHitW "m:1" none none none none none
    ["aa/layer.tar"] (by decide)
  exact ⟨by decide, h.1, h.2.2.1⟩

/-! ## String prefix/suffix lemmas -/

theorem strStarts_append (p s : String) : strStarts p (p ++ s) = true := by
  unfold strStarts
  rw [String.data_append, List.take_left]
  simp

theorem strEndsWith_append (p s : String) : strEndsWith p (s ++ p) = true := by
  unfold strEndsWith
  rw [String.data_append, List.length_append, Nat.add_sub_cancel, List.drop_left]
  simp

/-! ## Lexicographic glob order: totality and transitivity -/

theorem lexLeB_total (as bs : List Char) : lexLeB as bs = true ∨ lexLeB bs as = true := by
  induction as generalizing bs with
  | nil => exact Or.inl rfl
  | cons a as ih =>
    cases bs with
    | nil => exact Or.inr rfl
    | cons b bs =>
      by_cases h1 : a.toNat < b.toNat
      · left
        simp [lexLeB, h1]
      · by_cases h2 : b.toNat < a.toNat
        · right
          simp [lexLeB, h2]
        · rcases ih bs with h | h
          · left
            simp [lexLeB, h1, h2, h]
          · right
            simp [lexLeB, h1, h2, h]

theorem lexLeB_trans (as bs cs : List Char) (h1 : lexLeB as bs = true)
    (h2 : lexLeB bs cs = true) : lexLeB as cs = true := by
  induction as generalizing bs cs with
  | nil => rfl
  | cons a as ih =>
    cases bs with
    | nil => exact absurd h1 (by simp [lexLeB])
    | cons b bs =>
      cases cs with
      | nil => exact absurd h2 (by simp [lexLeB])
      | cons c cs =>
        by_cases hab : a.toNat < b.toNat
        · by_cases hbc : b.toNat < c.toNat
          · simp [lexLeB, Nat.lt_trans hab hbc]
          · by_cases hcb : c.toNat < b.toNat
            · exact absurd h2 (by simp [lexLeB, hbc, hcb])
            · have hac : a.toNat < c.toNat := by omega
              simp [lexLeB, hac]
        · by_cases hba : b.toNat < a.toNat
          · exact absurd h1 (by simp [lexLeB, hab, hba])
          · by_cases hbc : b.toNat < c.toNat
            · have hac : a.toNat < c.toNat := by omega
              simp [lexLeB, hac]
            · by_cases hcb : c.toNat < b.toNat
              · exact absurd h2 (by simp [lexLeB, hbc, hcb])
              · have h1' : lexLeB as bs = true := by
                  simpa [lexLeB, hab, hba] using h1
                have h2' : lexLeB bs cs = true := by
                  simpa [lexLeB, hbc, hcb] using h2
                have hac1 : ¬ a.toNat < c.toNat := by omega
                have hca : ¬ c.toNat < a.toNat := by omega
                simp [lexLeB, hac1, hca, ih bs cs h1' h2']

instance : IsTotal String globLe :=
  ⟨fun a b => lexLeB_total a.data b.data⟩

instance : IsTrans String globLe :=
  ⟨fun a b c h1 h2 => lexLeB_trans a.data b.data c.data h1 h2⟩

/-! ## Claim C2: reassembly order of the startup script (corrected) -/

set_option maxRecDepth 16384 in
/-- C2 counterexample: for an image whose manifest lists the layers in
the order `zz, aa`, the staged layer archives are
`layer_zz.tar, layer_aa.tar` in manifest order, but the script's glob
concatenation reassembles the layer archives as
`layer_aa.tar, layer_zz.tar` — lexicographic (directory-listing) order,
not manifest order — refuting the claim as stated. -/
theorem C2_counterexample :
    ((boinc2docker_create_work envW2 [] "m:1" none none none none none).map
        (fun r => r.manifest.map layerFilenameOf)) =
      some ["layer_zz.tar", "layer_aa.tar"] ∧
    ((boinc2docker_create_work envW2 [] "m:1" none none none none none).map
        (fun r => (reassemblyOrder (sharedImageTarNames r)).filter
          (fun n => strStarts "layer_" n))) =
      some ["layer_aa.tar", "layer_zz.tar"] ∧
    (["layer_aa.tar", "layer_zz.tar"] : List String) ≠ ["layer_zz.tar", "layer_aa.tar"] := by
  refine ⟨by decide, by decide, by decide⟩

/-- C2 (amended): the startup script reassembles the staged archives by
a shell glob, i.e. in lexicographic filename order — a sorted
permutation of exactly the staged archives (every manifest layer's
archive plus the image-metadata archive), independent of manifest
order. -/
theorem C2_glob_order (env : Env) (cache : Cache) (image : String)
    (cmd : Option Command) (extras : List (String × List String))
    (ep pre post : Option String) (r : RunResult)
    (h : boinc2docker_create_work env cache image cmd (some extras) ep pre post = some r)
    (hex : ∀ p ∈ extras, strStarts "shared/image/" p.1 = false) :
    sharedImageTarNames r = r.manifest.map layerFilenameOf ++ [r.image_filename] ∧
    List.Perm (reassemblyOrder (sharedImageTarNames r)) (sharedImageTarNames r) ∧
    List.Sorted globLe (reassemblyOrder (sharedImageTarNames r)) := by
  have hst := run_staged env cache image cmd extras ep pre post r h
  have hifn := run_image_filename env cache image cmd (some extras) ep pre post r h
  have h1 : sharedImageTarNames r = r.manifest.map layerFilenameOf ++ [r.image_filename] := by
    unfold sharedImageTarNames
    rw [hst, List.filter_append, List.filter_append, List.filter_append]
    have e1 : (extras.map (fun p => (⟨p.1, pyBasename p.1, p.2⟩ : StagedFile))).filter
        (fun f => strStarts "shared/image/" f.open_name) = [] := by
      apply List.filter_eq_nil_iff.mpr
      intro f hf
      rcases List.mem_map.mp hf with ⟨p, hp, rfl⟩
      simp [hex p hp]
    have e2 : ([(⟨"shared/boinc_app", "boinc_app", []⟩ : StagedFile)]).filter
        (fun f => strStarts "shared/image/" f.open_name) = [] := by decide
    have e3 : (r.manifest.map stagedLayer).filter
        (fun f => strStarts "shared/image/" f.open_name) = r.manifest.map stagedLayer := by
      apply List.filter_eq_self.mpr
      intro f hf
      rcases List.mem_map.mp hf with ⟨l, hl, rfl⟩
      exact strStarts_append "shared/image/" (layerFilenameOf l)
    have e4 : ([(⟨"shared/image/" ++ r.image_filename, r.image_filename, layer_flags⟩ :
        StagedFile)]).filter (fun f => strStarts "shared/image/" f.open_name) =
        [⟨"shared/image/" ++ r.image_filename, r.image_filename, layer_flags⟩] := by
      apply List.filter_eq_self.mpr
      intro f hf
      rcases List.mem_singleton.mp hf with rfl
      exact strStarts_append "shared/image/" r.image_filename
    rw [e1, e2, e3, e4]
    simp only [List.nil_append, List.map_append, List.map_map]
    rfl
  have hTar : (sharedImageTarNames r).filter (fun n => strEndsWith ".tar" n) =
      sharedImageTarNames r := by
    rw [h1]
    apply List.filter_eq_self.mpr
    intro n hn
    rcases List.mem_append.mp hn with hn | hn
    · rcases List.mem_map.mp hn with ⟨l, hl, rfl⟩
      exact strEndsWith_append ".tar" ("layer_" ++ layerIdOf l)
    · rcases List.mem_singleton.mp hn with rfl
      rw [hifn]
      exact strEndsWith_append ".tar" ("image_" ++ env.imageId (normalizeImage image))
  refine ⟨h1, ?_, ?_⟩
  · unfold reassemblyOrder
    rw [hTar]
    exact List.perm_insertionSort globLe _
  · exact List.sorted_insertionSort globLe _

set_option maxRecDepth 16384 in
/-- Witness for the amended C2, over the two-layer environment. -/
theorem C2_glob_order_witness :
    sharedImageTarNames r2cW = r2cW.manifest.map layerFilenameOf ++ [r2cW.image_filename] ∧
    List.Perm (reassemblyOrder (sharedImageTarNames r2cW)) (sharedImageTarNames r2cW) := by
  have h := C2_glob_order envW2 [] "m:1" none [] none none none r2cW
    (Option.some_get _).symm (by simp)
  exact ⟨h.1, h.2.1⟩

/-! ## Claim C5: archives written directly at their final names (code bug) -/

set_option maxRecDepth 16384 in
/-- C5 (the claim fails on the code): every write of a fresh run targets
the FINAL archive filename directly (`tar cvf {layer_path}` at the
resolved cache path — no temporary name, no rename), so a fault during
the very first write leaves a half-written file observable in the store
under its final name `layer_aa.tar`; a subsequent run's existence check
then treats it as authoritative: it performs no extraction, stages the
damaged file, and ends with the entry still half written — no
completeness validation anywhere. -/
theorem C5_partial_write_exposed :
    writesW5.map Prod.fst =
      ["layer_aa.tar", "layer_aa.tar.gz", "image_i0.tar", "image_i0.tar.gz"] ∧
    cacheFind cacheFaultW5 "layer_aa.tar" = some Entry.halfWritten ∧
    ((boinc2docker_create_work envW cacheFaultW5 "m:1" none none none none none).map
      RunResult.extractions = some []) ∧
    ((boinc2docker_create_work envW cacheFaultW5 "m:1" none none none none none).map
      (fun r => r.staged.map StagedFile.backing) =
      some ["boinc_app", "layer_aa.tar", "image_i0.tar"]) ∧
    ((boinc2docker_create_work envW cacheFaultW5 "m:1" none none none none none).map
      (fun r => cacheFind r.cacheEnd "layer_aa.tar") = some (some Entry.halfWritten)) := by
  refine ⟨by decide, by decide, by decide, by decide, by decide⟩

/-! ## Claim C6: cleanup on every exit path -/

theorem applyWrites_names (c : Cache) (ws : List (String × Entry)) (n : String)
    (hn : n ∈ cacheNames (applyWrites c ws)) :
    n ∈ cacheNames c ∨ ∃ w ∈ ws, w.1 = n := by
  induction ws generalizing c with
  | nil => exact Or.inl hn
  | cons w ws ih =>
    rcases ih (cacheAdd c w.1 w.2) hn with h | ⟨w', hw', rfl⟩
    · rcases List.mem_cons.mp h with rfl | h2
      · exact Or.inr ⟨w, List.mem_cons_self w ws, rfl⟩
      · exact Or.inl h2
    · exact Or.inr ⟨w', List.mem_cons_of_mem w hw', rfl⟩

theorem cacheAfterStop_names (c : Cache) (ws : List (String × Entry)) (k : Nat)
    (mw : Bool) (n : String) (hn : n ∈ cacheNames (cacheAfterStop c ws k mw)) :
    n ∈ cacheNames c ∨ ∃ w ∈ ws, w.1 = n := by
  have htake : n ∈ cacheNames (applyWrites c (ws.take k)) →
      n ∈ cacheNames c ∨ ∃ w ∈ ws, w.1 = n := by
    intro h
    rcases applyWrites_names c (ws.take k) n h with h | ⟨w, hw, rfl⟩
    · exact Or.inl h
    · exact Or.inr ⟨w, List.take_subset k ws hw, rfl⟩
  unfold cacheAfterStop at hn
  cases mw with
  | false =>
    simp only [Bool.false_eq_true, if_false] at hn
    exact htake hn
  | true =>
    simp only [if_true] at hn
    cases hd : ws.drop k with
    | nil =>
      rw [hd] at hn
      exact htake hn
    | cons w ws' =>
      rw [hd] at hn
      rcases List.mem_cons.mp hn with rfl | hn2
      · exact Or.inr ⟨w, List.drop_subset k ws (hd ▸ List.mem_cons_self w ws'), rfl⟩
      · exact htake hn2

theorem layerLoop_writes_final (ne : Bool) (ls : List String) (c : Cache) :
    ∀ w ∈ (layerLoop ne ls c).2.2.1, isFinalArchiveName w.1 := by
  induction ls generalizing c with
  | nil => intro w hw; cases hw
  | cons l ls ih =>
    intro w hw
    cases hb : (ne && ! cacheHas c (layerFilenameOf l))
    · rw [layerLoop_cons_false _ _ _ _ hb] at hw
      exact ih c w hw
    · rw [layerLoop_cons_true _ _ _ _ hb] at hw
      rcases List.mem_cons.mp hw with rfl | hw2
      · exact ⟨layerIdOf l, Or.inl rfl⟩
      · rcases List.mem_cons.mp hw2 with rfl | hw3
        · exact ⟨layerIdOf l, Or.inr (Or.inl rfl)⟩
        · exact ih (extractLayer c l) w hw3

theorem mkResult_writes_final (env : Env) (cache : Cache) (image : String)
    (command : Command) (extras : List StagedFile) (entrypoint : Option String)
    (prerun postrun : String) (ne : Bool) (manifest : List String) :
    ∀ w ∈ (mkResult env cache image command extras entrypoint prerun postrun ne
      manifest).writes, isFinalArchiveName w.1 := by
  intro w hw
  rw [mkResult_writes] at hw
  rcases List.mem_append.mp hw with hw | hw
  · exact layerLoop_writes_final ne manifest cache w hw
  · cases ne with
    | false => simp at hw
    | true =>
      rw [if_pos rfl] at hw
      rcases List.mem_cons.mp hw with rfl | hw2
      · exact ⟨env.imageId image, Or.inr (Or.inr (Or.inl rfl))⟩
      · rcases List.mem_cons.mp hw2 with rfl | hw3
        · exact ⟨env.imageId image, Or.inr (Or.inr (Or.inr rfl))⟩
        · cases hw3

theorem run_writes_final (env : Env) (cache : Cache) (image : String)
    (cmd : Option Command) (fs : Option (List (String × List String)))
    (ep pre post : Option String) (r : RunResult)
    (h : boinc2docker_create_work env cache image cmd fs ep pre post = some r) :
    ∀ w ∈ r.writes, isFinalArchiveName w.1 := by
  unfold boinc2docker_create_work createWorkBody at h
  cases hfind : cacheFind cache ("image_" ++ env.imageId (normalizeImage image) ++ ".tar") with
  | none =>
    rw [hfind] at h
    simp only [Option.some.injEq] at h
    subst h
    apply mkResult_writes_final
  | some e =>
    rw [hfind] at h
    cases e with
    | imageTar ls =>
      simp only [Option.some.injEq] at h
      subst h
      apply mkResult_writes_final
    | layerTar => cases h
    | gzArchive => cases h
    | halfWritten => cases h

theorem runWrites_final (env : Env) (cache : Cache) (image : String)
    (cmd : Option Command) (fs : Option (List (String × List String)))
    (ep pre post : Option String) :
    ∀ w ∈ runWrites env cache image cmd fs ep pre post, isFinalArchiveName w.1 := by
  intro w hw
  unfold runWrites at hw
  cases hrun : boinc2docker_create_work env cache image cmd fs ep pre post with
  | none =>
    rw [hrun] at hw
    exact absurd hw (List.not_mem_nil w)
  | some r =>
    rw [hrun] at hw
    exact run_writes_final env cache image cmd fs ep pre post r hrun w hw

/-- C6: on every exit path — completion, the pre-write failure, an
arbitrary exception or an explicit interruption around any write,
mid-write or not — the scratch-directory cleanup runs; when the cleanup
operation itself succeeds the scratch directory is removed; an
interruption is never propagated to the caller as an error; the cache
store never acquires a file under anything but a final
`layer_<id>.tar[.gz]` / `image_<id>.tar[.gz]` archive name (no
partially-named file); and a failure of the cleanup itself never changes
what the caller sees. -/
theorem C6_cleanup (env : Env) (cache : Cache) (image : String) (cmd : Option Command)
    (fs : Option (List (String × List String))) (ep pre post : Option String)
    (stop : Option (Nat × Bool)) (midWrite cleanupFails : Bool)
    (hc : ∀ n ∈ cacheNames cache, isFinalArchiveName n) :
    (orchestrate env cache image cmd fs ep pre post stop midWrite cleanupFails).cleanupRan
      = true ∧
    (cleanupFails = false →
      (orchestrate env cache image cmd fs ep pre post stop midWrite
        cleanupFails).scratchRemoved = true) ∧
    (∀ (k : Nat) (mw : Bool),
      (orchestrate env cache image cmd fs ep pre post (some (k, true)) mw
        cleanupFails).errorToCaller = false) ∧
    (∀ n ∈ (orchestrate env cache image cmd fs ep pre post stop midWrite
        cleanupFails).cacheNames, isFinalArchiveName n) ∧
    ((orchestrate env cache image cmd fs ep pre post stop midWrite true).errorToCaller =
      (orchestrate env cache image cmd fs ep pre post stop midWrite false).errorToCaller) := by
  refine ⟨?_, ?_, ?_, ?_, ?_⟩
  · cases stop with
    | none =>
      cases hrun : boinc2docker_create_work env cache image cmd fs ep pre post with
      | none => simp [orchestrate, hrun]
      | some r => simp [orchestrate, hrun]
    | some ki =>
      obtain ⟨k, i⟩ := ki
      simp [orchestrate]
  · intro hcf
    subst hcf
    cases stop with
    | none =>
      cases hrun : boinc2docker_create_work env cache image cmd fs ep pre post with
      | none => simp [orchestrate, hrun]
      | some r => simp [orchestrate, hrun]
    | some ki =>
      obtain ⟨k, i⟩ := ki
      simp [orchestrate]
  · intro k mw
    simp [orchestrate]
  · intro n hn
    cases stop with
    | none =>
      cases hrun : boinc2docker_create_work env cache image cmd fs ep pre post with
      | none =>
        simp only [orchestrate, hrun] at hn
        exact hc n hn
      | some r =>
        simp only [orchestrate, hrun] at hn
        rcases applyWrites_names cache r.writes n hn with h | ⟨w, hw, rfl⟩
        · exact hc n h
        · exact run_writes_final env cache image cmd fs ep pre post r hrun w hw
    | some ki =>
      obtain ⟨k, i⟩ := ki
      simp only [orchestrate] at hn
      rcases cacheAfterStop_names cache _ k midWrite n hn with h | ⟨w, hw, rfl⟩
      · exact hc n h
      · exact runWrites_final env cache image cmd fs ep pre post w hw
  · cases stop with
    | none =>
      cases hrun : boinc2docker_create_work env cache image cmd fs ep pre post with
      | none => simp [orchestrate, hrun]
      | some r => simp [orchestrate, hrun]
    | some ki =>
      obtain ⟨k, i⟩ := ki
      simp [orchestrate]

set_option maxRecDepth 16384 in
/-- Witness for C6: a run interrupted mid-write after one completed
write still reaches cleanup, reports no error, and leaves only
final-named files in the store. -/
theorem C6_cleanup_witness :
    (orchestrate envW [] "m:1" none none none none none (some (1, true)) true
      false).errorToCaller = false ∧
    (orchestrate envW [] "m:1" none none none none none (some (1, true)) true
      false).scratchRemoved = true ∧
    (orchestrate envW [] "m:1" none none none none none (some (1, true)) true
      false).cleanupRan = true := by
  have h := C6_cleanup envW [] "m:1" none none none none none (some (1, true)) true false
    (by simp [cacheNames])
  exact ⟨h.2.2.1 1 true, h.2.1 rfl, h.1⟩

end Boinc2Docker
